import Mathlib

/-!
Verification development for the adalogger repository (ESP32 FRC CAN bus
logger).  The repository contains three firmware variants:

* variant A (first part of `adalogger.ino`): array-backed device registry,
  shift-on-overflow message buffer, JSON web handlers
  (`decodeCANMsgID`, `makeCANMsgID`, `updateDeviceList`, `handleReset`,
  `handleSend`, `handleMessages`, the receive `loop`);
* variant B (second part of `adalogger.ino`): map-backed registry, vector
  log with evict-oldest, enable/heartbeat watchdog and relay control
  (`decodeFRCCANID`, `isRobotControllerEnableMessage`, `extractEnableState`,
  `RelayControlTask`, `CANMonitorTask`, `addLogEntry`, `handleLogsDownload`);
* variant C (`src/unnamed/part_000`): ring-buffer log (`CAN_Send`, `loop`,
  `handleData`), FRC id codec (`encode_id` / `decode_id`), EEPROM device
  number persistence and the serial `&CANID` helper.

Machine integers are embedded as `Nat` with explicit `% 2^w` truncation at
the points where the C++ types truncate; bitwise operators mirror the
source expressions.
-/

namespace Adalogger

/-! ### Generic bitwise helper lemmas -/

/-- Disjoint high/low bit packing: or-ing a left-shifted value with a value
below the shift amount is plain addition. -/
theorem lor_high_low (a b k : Nat) (hb : b < 2 ^ k) :
    (a <<< k) ||| b = a * 2 ^ k + b := by
  apply Nat.eq_of_testBit_eq
  intro i
  rw [Nat.testBit_lor, Nat.testBit_shiftLeft,
    show a * 2 ^ k + b = 2 ^ k * a + b by ring,
    Nat.testBit_mul_pow_two_add a hb i]
  by_cases h : i < k
  · have : ¬ i ≥ k := by omega
    simp [h, this]
  · have hik : i ≥ k := by omega
    have hbz : b.testBit i = false := by
      apply Nat.testBit_lt_two_pow
      calc b < 2 ^ k := hb
        _ ≤ 2 ^ i := Nat.pow_le_pow_right (by norm_num) hik
    simp [h, hik, hbz]

theorem and_255 (x : Nat) : x &&& 0xFF = x % 256 := by
  have h := Nat.and_pow_two_sub_one_eq_mod x 8
  norm_num at h
  exact h

theorem and_1023 (x : Nat) : x &&& 0x3FF = x % 1024 := by
  have h := Nat.and_pow_two_sub_one_eq_mod x 10
  norm_num at h
  exact h

theorem and_63 (x : Nat) : x &&& 0x3F = x % 64 := by
  have h := Nat.and_pow_two_sub_one_eq_mod x 6
  norm_num at h
  exact h

theorem and_31 (x : Nat) : x &&& 0x1F = x % 32 := by
  have h := Nat.and_pow_two_sub_one_eq_mod x 5
  norm_num at h
  exact h

theorem and_15 (x : Nat) : x &&& 0xF = x % 16 := by
  have h := Nat.and_pow_two_sub_one_eq_mod x 4
  norm_num at h
  exact h

theorem and_one (x : Nat) : x &&& 0x01 = x % 2 :=
  Nat.and_one_is_mod x

/-! ### Frame codec, variant A (`decodeCANMsgID` / `makeCANMsgID`)

Source (`src/adalogger.ino`, first variant):

    DecodedCANID decodeCANMsgID(uint32_t can_id) \x7b
      decoded.deviceID = (can_id >> 24) & 0xFF;
      decoded.manufacturerID = (can_id >> 16) & 0xFF;
      decoded.apiID = (can_id >> 6) & 0x3FF;
      decoded.deviceNumber = can_id & 0x3F;
    \x7d

    uint32_t makeCANMsgID(uint8_t deviceID, uint8_t manufacturerID,
                          uint16_t apiID, uint8_t deviceNumber) \x7b
      return ((uint32_t)(deviceID & 0xFF) << 24) |
             ((uint32_t)(manufacturerID & 0xFF) << 16) |
             ((uint32_t)(apiID & 0x3FF) << 6) |
             (deviceNumber & 0x3F);
    \x7d

The `% 256` / `% 65536` at parameter positions model the `uint8_t` /
`uint16_t` parameter types; `% 4294967296` models the `uint32_t` argument. -/

structure DecodedCANID where
  deviceID : Nat
  manufacturerID : Nat
  apiID : Nat
  deviceNumber : Nat
deriving Repr, DecidableEq

def decodeCANMsgID (can_id : Nat) : DecodedCANID :=
  let id := can_id % 4294967296
  { deviceID := (id >>> 24) &&& 0xFF
    manufacturerID := (id >>> 16) &&& 0xFF
    apiID := (id >>> 6) &&& 0x3FF
    deviceNumber := id &&& 0x3F }

def makeCANMsgID (deviceID manufacturerID apiID deviceNumber : Nat) : Nat :=
  (((deviceID % 256) &&& 0xFF) <<< 24) |||
  (((manufacturerID % 256) &&& 0xFF) <<< 16) |||
  (((apiID % 65536) &&& 0x3FF) <<< 6) |||
  ((deviceNumber % 256) &&& 0x3F)

/-! ### Frame codec, variant C (`encode_id` / `decode_id`)

Source (`src/unnamed/part_000`):

    static inline uint32_t encode_id(uint8_t dt, uint8_t man, uint16_t api, uint8_t dn) \x7b
      return ((uint32_t)dt << 24) | ((uint32_t)man << 16) | ((uint32_t)api << 6) | (dn & 0x3F);
    \x7d

    static inline void decode_id(uint32_t id, ...) \x7b
      dt  = (id >> 24) & 0xFF;
      man = (id >> 16) & 0xFF;
      api = (id >> 6)  & 0x3FF;
      dn  = id & 0x3F;
    \x7d

Note that, unlike `makeCANMsgID`, `encode_id` does not mask `api` to
10 bits before shifting: only the `uint16_t` parameter type truncates it. -/

structure DecodedId where
  dt : Nat
  man : Nat
  api : Nat
  dn : Nat
deriving Repr, DecidableEq

def encode_id (dt man api dn : Nat) : Nat :=
  ((dt % 256) <<< 24) ||| ((man % 256) <<< 16) ||| ((api % 65536) <<< 6) |||
  ((dn % 256) &&& 0x3F)

def decode_id (can_id : Nat) : DecodedId :=
  let id := can_id % 4294967296
  { dt := (id >>> 24) &&& 0xFF
    man := (id >>> 16) &&& 0xFF
    api := (id >>> 6) &&& 0x3FF
    dn := id &&& 0x3F }

/-! Arithmetic characterizations of the two encoders. -/

theorem makeCANMsgID_arith (dt man api dn : Nat) :
    makeCANMsgID dt man api dn =
      (dt % 256) * 2 ^ 24 + (man % 256) * 2 ^ 16 + (api % 1024) * 2 ^ 6 + dn % 64 := by
  unfold makeCANMsgID
  rw [and_255, and_255, and_1023, and_63,
    Nat.mod_mod_of_dvd dt (dvd_refl 256), Nat.mod_mod_of_dvd man (dvd_refl 256),
    Nat.mod_mod_of_dvd api (by norm_num : (1024:Nat) ∣ 65536),
    Nat.mod_mod_of_dvd dn (by norm_num : (64:Nat) ∣ 256),
    Nat.lor_assoc, Nat.lor_assoc,
    lor_high_low (api % 1024) (dn % 64) 6 (by omega),
    lor_high_low (man % 256) _ 16 (by
      have h1 : api % 1024 < 1024 := Nat.mod_lt _ (by norm_num)
      have h2 : dn % 64 < 64 := Nat.mod_lt _ (by norm_num)
      have : (2:Nat) ^ 6 = 64 := by norm_num
      omega),
    lor_high_low (dt % 256) _ 24 (by
      have h1 : man % 256 < 256 := Nat.mod_lt _ (by norm_num)
      have h2 : api % 1024 < 1024 := Nat.mod_lt _ (by norm_num)
      have h3 : dn % 64 < 64 := Nat.mod_lt _ (by norm_num)
      have e6 : (2:Nat) ^ 6 = 64 := by norm_num
      have e16 : (2:Nat) ^ 16 = 65536 := by norm_num
      have e24 : (2:Nat) ^ 24 = 16777216 := by norm_num
      omega)]
  ring

theorem encode_id_arith (dt man api dn : Nat) (hapi : api < 1024) :
    encode_id dt man api dn =
      (dt % 256) * 2 ^ 24 + (man % 256) * 2 ^ 16 + api * 2 ^ 6 + dn % 64 := by
  unfold encode_id
  rw [and_63, Nat.mod_mod_of_dvd dn (by norm_num : (64:Nat) ∣ 256),
    Nat.mod_eq_of_lt (show api < 65536 by omega),
    Nat.lor_assoc, Nat.lor_assoc,
    lor_high_low api (dn % 64) 6 (by
      have : dn % 64 < 64 := Nat.mod_lt _ (by norm_num)
      omega),
    lor_high_low (man % 256) _ 16 (by
      have h2 : dn % 64 < 64 := Nat.mod_lt _ (by norm_num)
      have e6 : (2:Nat) ^ 6 = 64 := by norm_num
      omega),
    lor_high_low (dt % 256) _ 24 (by
      have h1 : man % 256 < 256 := Nat.mod_lt _ (by norm_num)
      have h2 : dn % 64 < 64 := Nat.mod_lt _ (by norm_num)
      have e6 : (2:Nat) ^ 6 = 64 := by norm_num
      have e16 : (2:Nat) ^ 16 = 65536 := by norm_num
      have e24 : (2:Nat) ^ 24 = 16777216 := by norm_num
      omega)]
  ring

theorem decodeCANMsgID_arith (can_id : Nat) :
    decodeCANMsgID can_id =
      { deviceID := can_id % 4294967296 / 2 ^ 24 % 256
        manufacturerID := can_id % 4294967296 / 2 ^ 16 % 256
        apiID := can_id % 4294967296 / 2 ^ 6 % 1024
        deviceNumber := can_id % 4294967296 % 64 } := by
  unfold decodeCANMsgID
  simp only [Nat.shiftRight_eq_div_pow, and_255, and_1023, and_63]

theorem decode_id_arith (can_id : Nat) :
    decode_id can_id =
      { dt := can_id % 4294967296 / 2 ^ 24 % 256
        man := can_id % 4294967296 / 2 ^ 16 % 256
        api := can_id % 4294967296 / 2 ^ 6 % 1024
        dn := can_id % 4294967296 % 64 } := by
  unfold decode_id
  simp only [Nat.shiftRight_eq_div_pow, and_255, and_1023, and_63]

/-- C1: for every field tuple within the declared bit widths (8-bit
deviceType, 8-bit manufacturer, 10-bit api, 6-bit deviceNumber), decoding
the identifier produced by encoding returns exactly the original fields,
for both encode/decode pairs (`makeCANMsgID`/`decodeCANMsgID` and
`encode_id`/`decode_id`). -/
theorem decode_encode_roundtrip (dt man api dn : Nat)
    (hdt : dt < 256) (hman : man < 256) (hapi : api < 1024) (hdn : dn < 64) :
    decodeCANMsgID (makeCANMsgID dt man api dn) =
      { deviceID := dt, manufacturerID := man, apiID := api, deviceNumber := dn } ∧
    decode_id (encode_id dt man api dn) =
      { dt := dt, man := man, api := api, dn := dn } := by
  have e1 : dt % 256 = dt := Nat.mod_eq_of_lt hdt
  have e2 : man % 256 = man := Nat.mod_eq_of_lt hman
  have e3 : api % 1024 = api := Nat.mod_eq_of_lt hapi
  have e4 : dn % 64 = dn := Nat.mod_eq_of_lt hdn
  have p6 : (2:Nat) ^ 6 = 64 := by norm_num
  have p16 : (2:Nat) ^ 16 = 65536 := by norm_num
  have p24 : (2:Nat) ^ 24 = 16777216 := by norm_num
  constructor
  · rw [makeCANMsgID_arith, decodeCANMsgID_arith, e1, e2, e3, e4,
      DecodedCANID.mk.injEq, p6, p16, p24]
    omega
  · rw [encode_id_arith dt man api dn hapi, decode_id_arith, e1, e2, e4,
      DecodedId.mk.injEq, p6, p16, p24]
    omega

/-- C1 witness: the spec scenario identifier 0x0A081801 round-trips through
both codecs (deviceType 0x0A, manufacturer 0x08, api 0x60, device number 1). -/
theorem decode_encode_roundtrip_witness :
    decodeCANMsgID (makeCANMsgID 10 8 96 1) =
      { deviceID := 10, manufacturerID := 8, apiID := 96, deviceNumber := 1 } ∧
    decode_id (encode_id 10 8 96 1) =
      { dt := 10, man := 8, api := 96, dn := 1 } :=
  decode_encode_roundtrip 10 8 96 1 (by decide) (by decide) (by decide) (by decide)

/-- C5 counterexample: `encode_id` does not mask its api field to the
declared 10-bit width.  Encoding api = 1024 differs from encoding
1024 mod 1024, and the overflowing api bit lands in the manufacturer
field: the decoded manufacturer of `encode_id 0 0 1024 0` is 1, not 0. -/
theorem encode_id_api_unmasked_counterexample :
    encode_id 0 0 1024 0 ≠ encode_id 0 0 (1024 % 1024) 0 ∧
    (decode_id (encode_id 0 0 1024 0)).man = 1 := by
  decide

/-- C5 (amended): `makeCANMsgID` masks every field to its declared width
(8/8/10/6 bits), so no out-of-range field corrupts its neighbours;
`encode_id` masks only the device number to 6 bits, its other parameters
being truncated just to their C parameter widths (8/8/16 bits) — in
particular an api value of width 11..16 bits corrupts the manufacturer
field.  Encoding a device number of 70 equals encoding 70 mod 64 in both
variants. -/
theorem encode_masking_amended (dt man api dn : Nat) :
    makeCANMsgID dt man api dn =
      makeCANMsgID (dt % 256) (man % 256) (api % 1024) (dn % 64) ∧
    encode_id dt man api dn = encode_id (dt % 256) (man % 256) (api % 65536) (dn % 64) ∧
    makeCANMsgID dt man api 70 = makeCANMsgID dt man api (70 % 64) ∧
    encode_id dt man api 70 = encode_id dt man api (70 % 64) := by
  have h1 : dt % 256 % 256 = dt % 256 := by omega
  have h2 : man % 256 % 256 = man % 256 := by omega
  have h3 : api % 65536 % 1024 = api % 1024 := by omega
  have h4 : api % 1024 % 65536 % 1024 = api % 1024 := by omega
  have h5 : api % 65536 % 65536 = api % 65536 := by omega
  have h6 : dn % 256 % 64 = dn % 64 := by omega
  have h7 : dn % 64 % 256 % 64 = dn % 64 := by omega
  refine ⟨?_, ?_, ?_, ?_⟩
  · simp only [makeCANMsgID, and_255, and_1023, and_63, h1, h2, h3, h4, h6, h7]
  · simp only [encode_id, and_63, h1, h2, h5, h6, h7]
  · simp only [makeCANMsgID, and_255, and_1023, and_63]
  · simp only [encode_id, and_63]

/-! ### Received frames

A received TWAI frame together with the millis() reading at which the
ingestion task processes it.  `data` models the 8-byte hardware payload
array; `dlc` is the data length code. -/

structure Msg where
  id : Nat
  extd : Bool
  rtr : Bool
  dlc : Nat
  data : List Nat
  now : Nat
deriving Repr, DecidableEq

/-! ### Frame codec, variant B (`decodeFRCCANID`)

Source: bit layout [28:24] device type (5 bits), [23:16] manufacturer
(8 bits), [15:10] api class (6 bits), [9:6] api index (4 bits),
[5:0] device number (6 bits). -/

structure FRCCANIdentifier where
  deviceType : Nat
  manufacturer : Nat
  apiClass : Nat
  apiIndex : Nat
  deviceNumber : Nat
deriving Repr, DecidableEq

def decodeFRCCANID (canId : Nat) : FRCCANIdentifier :=
  let id := canId % 4294967296
  { deviceType := (id >>> 24) &&& 0x1F
    manufacturer := (id >>> 16) &&& 0xFF
    apiClass := (id >>> 10) &&& 0x3F
    apiIndex := (id >>> 6) &&& 0x0F
    deviceNumber := id &&& 0x3F }

/-- FRC device type 1 (enum `ROBOT_CONTROLLER`). -/
def ROBOT_CONTROLLER : Nat := 1

/-- FRC manufacturer 1 (enum `NI`, National Instruments). -/
def NI : Nat := 1

/-- Heartbeat timeout of the relay watchdog (`ENABLE_HEARTBEAT_TIMEOUT_MS`). -/
def ENABLE_HEARTBEAT_TIMEOUT_MS : Nat := 500

/-! ### Enable/heartbeat watchdog (variant B) -/

def isRobotControllerEnableMessage (m : Msg) : Bool :=
  if !m.extd then false
  else
    let id := decodeFRCCANID m.id
    if id.deviceType == ROBOT_CONTROLLER && id.manufacturer == NI then true
    else false

def extractEnableState (m : Msg) : Bool :=
  if m.dlc > 0 then (m.data.getD 0 0) &&& 0x01 != 0
  else false

structure RobotEnableState where
  isEnabled : Bool
  lastEnableHeartbeatMs : Nat
  heartbeatActive : Bool
deriving Repr, DecidableEq

/-- Initial watchdog state: `g_robotState = (false, 0, false)`. -/
def initRobotState : RobotEnableState :=
  { isEnabled := false, lastEnableHeartbeatMs := 0, heartbeatActive := false }

/-- CANMonitorTask's watchdog update for one received frame: a recognized
controller-status frame stores the extracted enable bit and refreshes the
heartbeat timestamp; any other frame leaves the state untouched. -/
def processEnableFrame (st : RobotEnableState) (m : Msg) : RobotEnableState :=
  if isRobotControllerEnableMessage m then
    { isEnabled := extractEnableState m
      lastEnableHeartbeatMs := m.now % 4294967296
      heartbeatActive := true }
  else st

/-- Unsigned 32-bit subtraction, as computed by `millis() - lastEnableHeartbeatMs`
on `uint32_t`. -/
def wrapSub (a b : Nat) : Nat :=
  (a % 4294967296 + (4294967296 - b % 4294967296)) % 4294967296

inductive RelayObservedState where
  | ENABLED
  | DISABLED
  | HEARTBEAT_LOST
deriving Repr, DecidableEq

/-- Externally observed watchdog state, as computed by `RelayControlTask` at
read time: solid on/off only when the heartbeat is active and recent,
flashing (heartbeat lost) otherwise. -/
def relayObservedState (now : Nat) (st : RobotEnableState) : RelayObservedState :=
  let timeSinceHeartbeat := wrapSub now st.lastEnableHeartbeatMs
  if st.heartbeatActive && timeSinceHeartbeat < ENABLE_HEARTBEAT_TIMEOUT_MS then
    if st.isEnabled then .ENABLED else .DISABLED
  else .HEARTBEAT_LOST

theorem wrapSub_of_le (a b : Nat) (ha : a < 4294967296) (hb : b < 4294967296)
    (h : b ≤ a) : wrapSub a b = a - b := by
  unfold wrapSub
  omega

theorem processEnableFrame_not_qualifying (st : RobotEnableState) (m : Msg)
    (h : isRobotControllerEnableMessage m = false) :
    processEnableFrame st m = st := by
  simp [processEnableFrame, h]

theorem foldl_processEnableFrame_not_qualifying (st : RobotEnableState)
    (ms : List Msg) (h : ∀ m ∈ ms, isRobotControllerEnableMessage m = false) :
    List.foldl processEnableFrame st ms = st := by
  induction ms generalizing st with
  | nil => rfl
  | cons m t ih =>
    rw [List.foldl_cons, processEnableFrame_not_qualifying st m (h m (by simp)),
      ih st (fun m' hm' => h m' (by simp [hm']))]

/-- C2: the watchdog read-time check dominates the stored enable bit.
Part 1: in the initial state, and after any run of frames none of which is
a controller-status frame, the observed state is HEARTBEAT_LOST.
Part 2: whenever the read-time uint32 difference now - lastHeartbeat is at
least TIMEOUT_MS (500), the observed state is HEARTBEAT_LOST regardless of
the stored enable bit.
Part 3: after a controller-status frame with enable bit 1 followed only by
non-controller-status frames, reading at least TIMEOUT_MS later observes
HEARTBEAT_LOST, never ENABLED. -/
theorem watchdog_timeout_observes_heartbeat_lost
    (now : Nat) (st : RobotEnableState) (m : Msg) (ms : List Msg) (st0 : RobotEnableState)
    (hq : isRobotControllerEnableMessage m = true)
    (hrest : ∀ m' ∈ ms, isRobotControllerEnableMessage m' = false)
    (hm : m.now < 4294967296) (hnow : now < 4294967296)
    (horder : m.now ≤ now) (hgap : 500 ≤ now - m.now) :
    (∀ ms0 : List Msg, (∀ m' ∈ ms0, isRobotControllerEnableMessage m' = false) →
      relayObservedState now (List.foldl processEnableFrame initRobotState ms0) =
        .HEARTBEAT_LOST) ∧
    (500 ≤ wrapSub now st.lastEnableHeartbeatMs →
      relayObservedState now st = .HEARTBEAT_LOST) ∧
    relayObservedState now
      (List.foldl processEnableFrame (processEnableFrame st0 m) ms) =
        .HEARTBEAT_LOST := by
  have hread : ∀ s : RobotEnableState, 500 ≤ wrapSub now s.lastEnableHeartbeatMs →
      relayObservedState now s = .HEARTBEAT_LOST := by
    intro s hs
    unfold relayObservedState ENABLE_HEARTBEAT_TIMEOUT_MS
    have : ¬ wrapSub now s.lastEnableHeartbeatMs < 500 := by omega
    simp [this]
  refine ⟨?_, hread st, ?_⟩
  · intro ms0 h0
    rw [foldl_processEnableFrame_not_qualifying initRobotState ms0 h0]
    simp [relayObservedState, initRobotState]
  · rw [foldl_processEnableFrame_not_qualifying _ ms hrest]
    apply hread
    have hst : (processEnableFrame st0 m).lastEnableHeartbeatMs = m.now % 4294967296 := by
      simp [processEnableFrame, hq]
    rw [hst, Nat.mod_eq_of_lt hm, wrapSub_of_le now m.now hnow hm horder]
    omega

/-- C2 witness: a qualifying enabled frame at time 0 followed by silence
until time 600 is observed as HEARTBEAT_LOST. -/
theorem watchdog_timeout_observes_heartbeat_lost_witness :
    relayObservedState 600
      (List.foldl processEnableFrame
        (processEnableFrame initRobotState
          { id := 0x01010000, extd := true, rtr := false, dlc := 8,
            data := [1, 0, 0, 0, 0, 0, 0, 0], now := 0 }) []) =
      .HEARTBEAT_LOST :=
  (watchdog_timeout_observes_heartbeat_lost 600 initRobotState
    { id := 0x01010000, extd := true, rtr := false, dlc := 8,
      data := [1, 0, 0, 0, 0, 0, 0, 0], now := 0 } [] initRobotState
    (by decide) (by intro m' hm'; simp at hm') (by decide) (by decide)
    (by decide) (by decide)).2.2

theorem mod_two_bne_zero (x : Nat) : (x % 2 != 0) = decide (x % 2 = 1) := by
  rcases Nat.mod_two_eq_zero_or_one x with h | h <;> simp [h]

/-- C3 counterexample: a qualifying controller-status frame with
zero-length payload does update the enable bit — `extractEnableState`
returns false for an empty payload and `CANMonitorTask` stores it
unconditionally, so a previously enabled state becomes disabled. -/
theorem zero_length_enable_frame_counterexample :
    isRobotControllerEnableMessage
      { id := 0x01010000, extd := true, rtr := false, dlc := 0,
        data := [0, 0, 0, 0, 0, 0, 0, 0], now := 100 } = true ∧
    (processEnableFrame
      { isEnabled := true, lastEnableHeartbeatMs := 0, heartbeatActive := true }
      { id := 0x01010000, extd := true, rtr := false, dlc := 0,
        data := [0, 0, 0, 0, 0, 0, 0, 0], now := 100 }).isEnabled = false := by
  decide

/-- C3 (amended): a frame updates the watchdog iff it is an extended frame
whose decoded deviceType and manufacturer equal the controller signature
(Robot Controller = 1, NI = 1); a non-qualifying frame leaves the state
unchanged; a qualifying frame with positive payload length stores bit 0 of
payload byte 0 as the enable bit and refreshes the heartbeat timestamp; a
qualifying frame with zero-length payload also refreshes the timestamp but
forces the stored enable bit to false (rather than leaving it unchanged). -/
theorem enable_frame_recognition_amended (m : Msg) (st : RobotEnableState) :
    (isRobotControllerEnableMessage m = true ↔
      m.extd = true ∧ (decodeFRCCANID m.id).deviceType = ROBOT_CONTROLLER ∧
        (decodeFRCCANID m.id).manufacturer = NI) ∧
    (isRobotControllerEnableMessage m = false → processEnableFrame st m = st) ∧
    (isRobotControllerEnableMessage m = true → 0 < m.dlc →
      processEnableFrame st m =
        { isEnabled := decide (m.data.getD 0 0 % 2 = 1)
          lastEnableHeartbeatMs := m.now % 4294967296
          heartbeatActive := true }) ∧
    (isRobotControllerEnableMessage m = true → m.dlc = 0 →
      processEnableFrame st m =
        { isEnabled := false
          lastEnableHeartbeatMs := m.now % 4294967296
          heartbeatActive := true }) := by
  refine ⟨?_, processEnableFrame_not_qualifying st m, ?_, ?_⟩
  · unfold isRobotControllerEnableMessage
    cases hx : m.extd <;> simp [hx, ROBOT_CONTROLLER, NI]
  · intro hq hdlc
    simp only [processEnableFrame, extractEnableState, hq, if_true, hdlc,
      gt_iff_lt, and_one, mod_two_bne_zero]
  · intro hq hdlc
    simp [processEnableFrame, extractEnableState, hq, hdlc]

/-- C3 amended witness: a qualifying frame with payload byte 0 = 0x03 at
time 7 drives the watchdog to enabled with timestamp 7; and on the same
state a zero-length qualifying frame forces the enable bit to false. -/
theorem enable_frame_recognition_amended_witness :
    processEnableFrame initRobotState
      { id := 0x01010000, extd := true, rtr := false, dlc := 8,
        data := [3, 0, 0, 0, 0, 0, 0, 0], now := 7 } =
      { isEnabled := decide ((3:Nat) % 2 = 1), lastEnableHeartbeatMs := 7,
        heartbeatActive := true } ∧
    processEnableFrame initRobotState
      { id := 0x01010000, extd := true, rtr := false, dlc := 0,
        data := [3, 0, 0, 0, 0, 0, 0, 0], now := 7 } =
      { isEnabled := false, lastEnableHeartbeatMs := 7,
        heartbeatActive := true } := by
  constructor
  · exact (enable_frame_recognition_amended
      { id := 0x01010000, extd := true, rtr := false, dlc := 8,
        data := [3, 0, 0, 0, 0, 0, 0, 0], now := 7 } initRobotState).2.2.1
      (by decide) (by decide)
  · exact (enable_frame_recognition_amended
      { id := 0x01010000, extd := true, rtr := false, dlc := 0,
        data := [3, 0, 0, 0, 0, 0, 0, 0], now := 7 } initRobotState).2.2.2
      (by decide) (by decide)

/-! ### Bounded frame log, variant B (`addLogEntry` on `std::vector`)

Source: `addLogEntry` builds a `LogEntry` from the message (memcpy of all
8 data bytes), erases the front of `g_logBuffer` when its size is already
at `MAX_LOG_ENTRIES` (500), and pushes the new entry at the back.
`handleLogsDownload` emits one CSV row per entry, iterating the vector
front to back. -/

def MAX_LOG_ENTRIES : Nat := 500

structure LogEntry where
  timestamp : Nat
  canId : Nat
  isExtended : Bool
  isRTR : Bool
  dlc : Nat
  data : List Nat
  isError : Bool
  errorMsg : String
deriving Repr, DecidableEq

def toLogEntry (m : Msg) (isError : Bool) (errMsg : Option String) : LogEntry :=
  { timestamp := m.now % 4294967296
    canId := m.id
    isExtended := m.extd
    isRTR := m.rtr
    dlc := m.dlc
    data := (List.range 8).map (fun i => m.data.getD i 0)
    isError := isError
    errorMsg := errMsg.getD "" }

def addLogEntry (buf : List LogEntry) (m : Msg) (isError : Bool)
    (errMsg : Option String) : List LogEntry :=
  let buf' := if MAX_LOG_ENTRIES ≤ buf.length then buf.drop 1 else buf
  buf' ++ [toLogEntry m isError errMsg]

/-- The receive-path call `addLogEntry(msg)` (no error, no message). -/
def addLogEntryRx (buf : List LogEntry) (m : Msg) : List LogEntry :=
  addLogEntry buf m false none

/-- The rows of the CSV produced by `handleLogsDownload`: one row per
stored entry, in vector order (front to back). -/
def handleLogsDownloadRows (buf : List LogEntry) : List LogEntry := buf

/-- Closed form of the variant-B log after any sequence of appends: the
buffer holds the last 500 entries, in insertion order. -/
theorem foldl_addLogEntryRx (l : List Msg) (buf : List LogEntry)
    (h : buf.length ≤ 500) :
    List.foldl addLogEntryRx buf l =
      (buf ++ l.map (fun m => toLogEntry m false none)).drop
        (buf.length + l.length - 500) := by
  induction l generalizing buf with
  | nil =>
    simp only [List.foldl_nil, List.map_nil, List.append_nil, List.length_nil]
    rw [show buf.length + 0 - 500 = 0 by omega]
    rfl
  | cons m t ih =>
    rw [List.foldl_cons]
    by_cases hlt : buf.length < 500
    · have hstep : addLogEntryRx buf m = buf ++ [toLogEntry m false none] := by
        unfold addLogEntryRx addLogEntry MAX_LOG_ENTRIES
        rw [if_neg (by omega)]
      rw [hstep, ih (buf ++ [toLogEntry m false none]) (by simp; omega)]
      simp only [List.length_append, List.length_cons, List.length_nil,
        List.map_cons, List.append_assoc, List.singleton_append]
      rw [show buf.length + (0 + 1) + t.length - 500
        = buf.length + (t.length + 1) - 500 by omega]
    · have hfull : buf.length = 500 := by omega
      have hstep : addLogEntryRx buf m = buf.drop 1 ++ [toLogEntry m false none] := by
        unfold addLogEntryRx addLogEntry MAX_LOG_ENTRIES
        rw [if_pos (by omega)]
      rw [hstep, ih (buf.drop 1 ++ [toLogEntry m false none]) (by simp; omega)]
      simp only [List.length_append, List.length_drop, List.length_cons,
        List.length_nil, List.map_cons, List.append_assoc, List.singleton_append]
      rw [show buf.length - 1 + (0 + 1) + t.length - 500 = t.length by omega,
        show buf.length + (t.length + 1) - 500 = 1 + t.length by omega,
        ← List.drop_drop, @List.drop_append_of_le_length _ buf _ 1 (by omega)]

/-! ### Message buffer, variant A (shift-on-overflow array)

Source (`loop` of the first variant): below capacity the frame is written
at `bufferIndex` (memcpy of `data_length_code` bytes) and the index grows;
at capacity the array is shifted left by one (`memmove`) and the frame is
written into the last slot.  `handleMessages` renders rows for indices
`0 .. min(bufferIndex, MAX_MESSAGES)`. -/

def MAX_MESSAGES : Nat := 500

structure CANMessage where
  id : Nat
  data : List Nat
  len : Nat
  timestamp : Nat
  extended : Bool
  error : Bool
deriving Repr, DecidableEq

instance : Inhabited CANMessage :=
  ⟨{ id := 0, data := List.replicate 8 0, len := 0, timestamp := 0,
     extended := false, error := false }⟩

instance : Inhabited Msg :=
  ⟨{ id := 0, extd := false, rtr := false, dlc := 0, data := [], now := 0 }⟩

/-- Field-by-field store of a received frame into a buffer slot: all scalar
fields are overwritten, and exactly `data_length_code` payload bytes are
copied — bytes beyond the length keep the slot's previous content. -/
def writeCANMessage (old : CANMessage) (m : Msg) : CANMessage :=
  { id := m.id
    data := (List.range 8).map
      (fun i => if i < m.dlc then m.data.getD i 0 else old.data.getD i 0)
    len := m.dlc
    timestamp := m.now % 4294967296
    extended := m.extd
    error := false }

structure ABuffer where
  buffer : Nat → CANMessage
  bufferIndex : Nat

def initABuffer : ABuffer := { buffer := fun _ => default, bufferIndex := 0 }

def aBufferStore (s : ABuffer) (m : Msg) : ABuffer :=
  if s.bufferIndex < MAX_MESSAGES then
    { buffer := fun j =>
        if j = s.bufferIndex then writeCANMessage (s.buffer s.bufferIndex) m
        else s.buffer j
      bufferIndex := s.bufferIndex + 1 }
  else
    { buffer := fun j =>
        if j < MAX_MESSAGES - 1 then s.buffer (j + 1)
        else if j = MAX_MESSAGES - 1 then
          writeCANMessage (s.buffer (MAX_MESSAGES - 1)) m
        else s.buffer j
      bufferIndex := s.bufferIndex }

/-- Rows rendered by `handleMessages`: slots 0 .. min(bufferIndex, 500). -/
def handleMessagesRows (s : ABuffer) : List CANMessage :=
  (List.range (min s.bufferIndex MAX_MESSAGES)).map s.buffer

/-- A stored slot reflects a received frame: every scalar field matches and
the payload bytes below the data length code match. -/
def msgMatches (e : CANMessage) (m : Msg) : Prop :=
  e.id = m.id ∧ e.len = m.dlc ∧ e.extended = m.extd ∧
  e.timestamp = m.now % 4294967296 ∧ e.error = false ∧
  ∀ i, i < min m.dlc 8 → e.data.getD i 0 = m.data.getD i 0

theorem getD_map_range {α : Type} (f : Nat → α) (n i : Nat) (d : α) (h : i < n) :
    ((List.range n).map f).getD i d = f i := by
  rw [List.getD_eq_getElem _ _ (by simpa using h), List.getElem_map,
    List.getElem_range]

theorem writeCANMessage_matches (old : CANMessage) (m : Msg) :
    msgMatches (writeCANMessage old m) m := by
  refine ⟨rfl, rfl, rfl, rfl, rfl, ?_⟩
  intro i hi
  show ((List.range 8).map
      (fun i => if i < m.dlc then m.data.getD i 0 else old.data.getD i 0)).getD i 0
    = m.data.getD i 0
  rw [getD_map_range _ 8 i 0 (by omega), if_pos (by omega)]

/-- Trace invariant of the variant-A buffer: after any sequence of received
frames the buffer index is min(n, 500) and slot j holds the
(n - min(n,500) + j)-th frame — the retained suffix in insertion order. -/
theorem aBuffer_trace (l : List Msg) :
    (List.foldl aBufferStore initABuffer l).bufferIndex = min l.length 500 ∧
    ∀ j, j < min l.length 500 →
      msgMatches ((List.foldl aBufferStore initABuffer l).buffer j)
        (l.getD (l.length - min l.length 500 + j) default) := by
  induction l using List.reverseRecOn with
  | nil =>
    constructor
    · rfl
    · intro j hj
      simp at hj
  | append_singleton l r ih =>
    obtain ⟨hidx, hmat⟩ := ih
    rw [List.foldl_append, List.foldl_cons, List.foldl_nil]
    set s := List.foldl aBufferStore initABuffer l with hs
    have hlen : (l ++ [r]).length = l.length + 1 := by simp
    by_cases hn : l.length < 500
    · have hbi : s.bufferIndex = l.length := by omega
      have hstep : aBufferStore s r =
          { buffer := fun j =>
              if j = s.bufferIndex then writeCANMessage (s.buffer s.bufferIndex) r
              else s.buffer j
            bufferIndex := s.bufferIndex + 1 } := by
        unfold aBufferStore MAX_MESSAGES
        rw [if_pos (by omega)]
      rw [hstep]
      constructor
      · simp only [hlen, hbi]
        omega
      · intro j hj
        rw [hlen] at hj
        have hj' : j < l.length + 1 := by omega
        simp only
        by_cases hje : j = l.length
        · rw [if_pos (by omega), hbi]
          have : (l ++ [r]).getD ((l ++ [r]).length - min (l ++ [r]).length 500 + j)
              default = r := by
            rw [hlen, List.getD_append_right _ _ _ _ (by omega)]
            rw [show l.length + 1 - min (l.length + 1) 500 + j - l.length = 0 by omega]
            rfl
          rw [this]
          exact writeCANMessage_matches _ r
        · rw [if_neg (by omega)]
          have hjl : j < l.length := by omega
          have := hmat j (by omega)
          rw [show l.length - min l.length 500 + j = j by omega] at this
          rw [hlen, show l.length + 1 - min (l.length + 1) 500 + j = j by omega,
            List.getD_append _ _ _ _ (by omega)]
          exact this
    · have hbi : s.bufferIndex = 500 := by omega
      have hstep : aBufferStore s r =
          { buffer := fun j =>
              if j < 499 then s.buffer (j + 1)
              else if j = 499 then writeCANMessage (s.buffer 499) r
              else s.buffer j
            bufferIndex := s.bufferIndex } := by
        unfold aBufferStore MAX_MESSAGES
        rw [if_neg (by omega)]
      rw [hstep]
      constructor
      · simp only [hlen, hbi]
        omega
      · intro j hj
        rw [hlen] at hj
        have hj500 : j < 500 := by omega
        simp only
        by_cases hje : j = 499
        · rw [if_neg (by omega), if_pos hje]
          have : (l ++ [r]).getD ((l ++ [r]).length - min (l ++ [r]).length 500 + j)
              default = r := by
            rw [hlen, List.getD_append_right _ _ _ _ (by omega)]
            rw [show l.length + 1 - min (l.length + 1) 500 + j - l.length = 0 by omega]
            rfl
          rw [this]
          exact writeCANMessage_matches _ r
        · rw [if_pos (by omega)]
          have := hmat (j + 1) (by omega)
          rw [hlen, show (l.length + 1) - min (l.length + 1) 500 + j
              = l.length - min l.length 500 + (j + 1) by omega,
            List.getD_append _ _ _ _ (by omega)]
          exact this

/-! ### Circular log, variant C (`src/unnamed/part_000`)

Source: a 500-slot array `logs` with `logIndex` (next write position) and
`logCount` (number of valid entries, capped at `MAX_LOGS`).  Both the
receive `loop` and `CAN_Send` write the frame fields into
`logs[logIndex]` (copying only `len` payload bytes), then advance
`logIndex = (logIndex + 1) % MAX_LOGS` and increment `logCount` while
below the cap.  `handleData` renders `count = min(logCount, MAX_LOGS)`
rows starting at `start = (logCount < MAX_LOGS) ? 0 : logIndex`, reading
slot `(start + i) % MAX_LOGS`. -/

def MAX_LOGS : Nat := 500

structure CANLog where
  id : Nat
  data : List Nat
  len : Nat
  timestamp : Nat
  is_extended : Bool
  is_tx : Bool
deriving Repr, DecidableEq

instance : Inhabited CANLog :=
  ⟨{ id := 0, data := List.replicate 8 0, len := 0, timestamp := 0,
     is_extended := false, is_tx := false }⟩

/-- One append request: the field values written into the next slot
(received frames use tx = false, `CAN_Send` uses extended = tx = true). -/
structure P0Req where
  id : Nat
  dlc : Nat
  data : List Nat
  extended : Bool
  tx : Bool
  ts : Nat
deriving Repr, DecidableEq

instance : Inhabited P0Req :=
  ⟨{ id := 0, dlc := 0, data := [], extended := false, tx := false, ts := 0 }⟩

def writeCANLog (old : CANLog) (r : P0Req) : CANLog :=
  { id := r.id
    data := (List.range 8).map
      (fun i => if i < r.dlc then r.data.getD i 0 else old.data.getD i 0)
    len := r.dlc
    timestamp := r.ts
    is_extended := r.extended
    is_tx := r.tx }

structure P0State where
  logs : Nat → CANLog
  logIndex : Nat
  logCount : Nat

def initP0 : P0State := { logs := fun _ => default, logIndex := 0, logCount := 0 }

def p0Append (s : P0State) (r : P0Req) : P0State :=
  { logs := fun j =>
      if j = s.logIndex then writeCANLog (s.logs s.logIndex) r else s.logs j
    logIndex := (s.logIndex + 1) % MAX_LOGS
    logCount := if s.logCount < MAX_LOGS then s.logCount + 1 else s.logCount }

def p0Start (s : P0State) : Nat := if s.logCount < MAX_LOGS then 0 else s.logIndex

def p0Count (s : P0State) : Nat := if s.logCount < MAX_LOGS then s.logCount else MAX_LOGS

/-- Rows rendered by `handleData`, oldest first. -/
def handleDataRows (s : P0State) : List CANLog :=
  (List.range (p0Count s)).map (fun i => s.logs ((p0Start s + i) % MAX_LOGS))

def logMatches (e : CANLog) (r : P0Req) : Prop :=
  e.id = r.id ∧ e.len = r.dlc ∧ e.is_extended = r.extended ∧ e.is_tx = r.tx ∧
  e.timestamp = r.ts ∧ ∀ i, i < min r.dlc 8 → e.data.getD i 0 = r.data.getD i 0

theorem writeCANLog_matches (old : CANLog) (r : P0Req) :
    logMatches (writeCANLog old r) r := by
  refine ⟨rfl, rfl, rfl, rfl, rfl, ?_⟩
  intro i hi
  show ((List.range 8).map
      (fun i => if i < r.dlc then r.data.getD i 0 else old.data.getD i 0)).getD i 0
    = r.data.getD i 0
  rw [getD_map_range _ 8 i 0 (by omega), if_pos (by omega)]

/-- Trace invariant of the variant-C ring: after any sequence of appends,
logCount is min(n, 500), logIndex is n mod 500, and the slot visited j-th
by the export holds the (n - min(n,500) + j)-th appended entry. -/
theorem p0_trace (l : List P0Req) :
    (List.foldl p0Append initP0 l).logCount = min l.length 500 ∧
    (List.foldl p0Append initP0 l).logIndex = l.length % 500 ∧
    ∀ j, j < min l.length 500 →
      logMatches ((List.foldl p0Append initP0 l).logs
          ((p0Start (List.foldl p0Append initP0 l) + j) % 500))
        (l.getD (l.length - min l.length 500 + j) default) := by
  induction l using List.reverseRecOn with
  | nil =>
    refine ⟨rfl, rfl, ?_⟩
    intro j hj
    simp at hj
  | append_singleton l r ih =>
    obtain ⟨hcnt, hidx, hmat⟩ := ih
    rw [List.foldl_append, List.foldl_cons, List.foldl_nil]
    set s := List.foldl p0Append initP0 l with hs
    have hlen : (l ++ [r]).length = l.length + 1 := by simp
    have hcnt' : (p0Append s r).logCount =
        if s.logCount < 500 then s.logCount + 1 else s.logCount := rfl
    have hidx' : (p0Append s r).logIndex = (s.logIndex + 1) % 500 := rfl
    have hlogs' : ∀ j, (p0Append s r).logs j =
        if j = s.logIndex then writeCANLog (s.logs s.logIndex) r else s.logs j :=
      fun j => rfl
    by_cases hn : l.length < 500
    · have hc : s.logCount = l.length := by omega
      have hi : s.logIndex = l.length := by omega
      have hcount2 : (p0Append s r).logCount = l.length + 1 := by
        rw [hcnt', if_pos (by omega), hc]
      refine ⟨?_, ?_, ?_⟩
      · rw [hcount2, hlen]
        omega
      · rw [hidx', hi, hlen]
      · intro j hj
        rw [hlen] at hj
        have hj' : j < l.length + 1 := by omega
        have hstart' : p0Start (p0Append s r) = 0 := by
          unfold p0Start MAX_LOGS
          rw [hcount2, hidx', hi]
          by_cases hfull : l.length + 1 < 500
          · rw [if_pos hfull]
          · rw [if_neg hfull]
            omega
        rw [hstart', show (0 + j) % 500 = j by omega, hlogs' j]
        by_cases hje : j = l.length
        · rw [if_pos (by omega)]
          have : (l ++ [r]).getD ((l ++ [r]).length - min (l ++ [r]).length 500 + j)
              default = r := by
            rw [hlen, List.getD_append_right _ _ _ _ (by omega)]
            rw [show l.length + 1 - min (l.length + 1) 500 + j - l.length = 0 by omega]
            rfl
          rw [this]
          exact writeCANLog_matches _ r
        · rw [if_neg (by omega)]
          have hjl : j < l.length := by omega
          have h0 := hmat j (by omega)
          have hstart : p0Start s = 0 := by
            unfold p0Start MAX_LOGS
            rw [if_pos (by omega)]
          rw [hstart, show (0 + j) % 500 = j by omega,
            show l.length - min l.length 500 + j = j by omega] at h0
          rw [hlen, show l.length + 1 - min (l.length + 1) 500 + j = j by omega,
            List.getD_append _ _ _ _ (by omega)]
          exact h0
    · have hc : s.logCount = 500 := by omega
      have hi : s.logIndex = l.length % 500 := hidx
      have hcount2 : (p0Append s r).logCount = 500 := by
        rw [hcnt', if_neg (by omega), hc]
      have hindex2 : (p0Append s r).logIndex = (l.length + 1) % 500 := by
        rw [hidx', hi]
        omega
      refine ⟨?_, ?_, ?_⟩
      · rw [hcount2, hlen]
        omega
      · rw [hindex2, hlen]
      · intro j hj
        rw [hlen] at hj
        have hj500 : j < 500 := by omega
        have hstart' : p0Start (p0Append s r) = (l.length + 1) % 500 := by
          unfold p0Start MAX_LOGS
          rw [hcount2, hindex2, if_neg (by omega)]
        have hstart : p0Start s = l.length % 500 := by
          unfold p0Start MAX_LOGS
          rw [if_neg (by omega), hi]
        rw [hstart', hlogs']
        by_cases hje : j = 499
        · rw [if_pos (by rw [hi]; omega)]
          have : (l ++ [r]).getD ((l ++ [r]).length - min (l ++ [r]).length 500 + j)
              default = r := by
            rw [hlen, List.getD_append_right _ _ _ _ (by omega)]
            rw [show l.length + 1 - min (l.length + 1) 500 + j - l.length = 0 by omega]
            rfl
          rw [this]
          exact writeCANLog_matches _ r
        · rw [if_neg (by rw [hi]; omega)]
          have h0 := hmat (j + 1) (by omega)
          rw [hstart] at h0
          rw [show ((l.length + 1) % 500 + j) % 500
            = (l.length % 500 + (j + 1)) % 500 by omega]
          rw [hlen, show l.length + 1 - min (l.length + 1) 500 + j
              = l.length - min l.length 500 + (j + 1) by omega,
            List.getD_append _ _ _ _ (by omega)]
          exact h0

/-- C4: the frame log never exceeds its fixed capacity of 500 entries; an
append at capacity evicts exactly the chronologically oldest entry while
preserving insertion order of the rest; and appending 501 entries leaves
exactly 500 entries, the first evicted and entries 2..501 retained in
order.  Stated for both log implementations: the variant-B vector
(`addLogEntry`) and the variant-C ring (`p0Append` with the `handleData`
read-out). -/
theorem frame_log_capacity_eviction :
    (∀ (buf : List LogEntry) (l : List Msg), buf.length ≤ 500 →
      (List.foldl addLogEntryRx buf l).length ≤ 500) ∧
    (∀ (buf : List LogEntry) (m : Msg), buf.length = 500 →
      addLogEntryRx buf m = buf.drop 1 ++ [toLogEntry m false none]) ∧
    (∀ l : List Msg, l.length = 501 →
      List.foldl addLogEntryRx [] l =
        (l.drop 1).map (fun m => toLogEntry m false none) ∧
      (List.foldl addLogEntryRx [] l).length = 500) ∧
    (∀ lp : List P0Req, (List.foldl p0Append initP0 lp).logCount ≤ 500) ∧
    (∀ lp : List P0Req, lp.length = 501 →
      p0Count (List.foldl p0Append initP0 lp) = 500 ∧
      ∀ j, j < 500 →
        logMatches ((List.foldl p0Append initP0 lp).logs
            ((p0Start (List.foldl p0Append initP0 lp) + j) % 500))
          (lp.getD (1 + j) default)) := by
  refine ⟨?_, ?_, ?_, ?_, ?_⟩
  · intro buf l h
    rw [foldl_addLogEntryRx l buf h]
    simp only [List.length_drop, List.length_append, List.length_map]
    omega
  · intro buf m h
    unfold addLogEntryRx addLogEntry MAX_LOG_ENTRIES
    rw [if_pos (by omega)]
  · intro l h
    rw [foldl_addLogEntryRx l [] (by simp)]
    constructor
    · rw [List.map_drop]
      simp only [List.nil_append, List.length_nil, List.length_map, h]
    · simp only [List.length_drop, List.length_append, List.length_nil,
        List.length_map, h]
  · intro lp
    have h := (p0_trace lp).1
    omega
  · intro lp h
    obtain ⟨hcnt, _, hmat⟩ := p0_trace lp
    constructor
    · unfold p0Count MAX_LOGS
      rw [hcnt, h]
      rfl
    · intro j hj
      have h0 := hmat j (by omega)
      rw [h] at h0
      rw [show (501 : Nat) - min 501 500 + j = 1 + j from by omega] at h0
      exact h0

/-- C4 witness: with a full log of 500 blank entries, one more append
drops the front entry and appends the new one; and the capacity bound
holds after that append. -/
theorem frame_log_capacity_eviction_witness :
    addLogEntryRx (List.replicate 500 (toLogEntry default false none)) default =
      (List.replicate 500 (toLogEntry default false none)).drop 1 ++
        [toLogEntry default false none] ∧
    (List.foldl addLogEntryRx (List.replicate 500 (toLogEntry default false none))
      [default]).length ≤ 500 :=
  ⟨frame_log_capacity_eviction.2.1 _ default (by rw [List.length_replicate]),
   frame_log_capacity_eviction.1 _ [default]
     (by rw [List.length_replicate])⟩

/-- C8: every log export returns the stored entries in insertion order,
oldest first, for every reachable log state — including states where the
log has wrapped its capacity: the variant-B CSV download lists the last
min(n,500) entries in order; the variant-A handleMessages rows and the
variant-C handleData rows at position j reflect the (n - min(n,500) + j)-th
appended frame. -/
theorem export_insertion_order :
    (∀ l : List Msg,
      handleLogsDownloadRows (List.foldl addLogEntryRx [] l) =
        (l.map (fun m => toLogEntry m false none)).drop (l.length - 500)) ∧
    (∀ l : List Msg,
      (handleMessagesRows (List.foldl aBufferStore initABuffer l)).length
          = min l.length 500 ∧
      ∀ j, j < min l.length 500 →
        msgMatches ((handleMessagesRows
            (List.foldl aBufferStore initABuffer l)).getD j default)
          (l.getD (l.length - min l.length 500 + j) default)) ∧
    (∀ lp : List P0Req,
      (handleDataRows (List.foldl p0Append initP0 lp)).length = min lp.length 500 ∧
      ∀ j, j < min lp.length 500 →
        logMatches ((handleDataRows (List.foldl p0Append initP0 lp)).getD j default)
          (lp.getD (lp.length - min lp.length 500 + j) default)) := by
  refine ⟨?_, ?_, ?_⟩
  · intro l
    unfold handleLogsDownloadRows
    rw [foldl_addLogEntryRx l [] (by simp)]
    simp
  · intro l
    obtain ⟨hidx, hmat⟩ := aBuffer_trace l
    have hrows : handleMessagesRows (List.foldl aBufferStore initABuffer l) =
        (List.range (min l.length 500)).map
          (List.foldl aBufferStore initABuffer l).buffer := by
      unfold handleMessagesRows MAX_MESSAGES
      rw [hidx, show min (min l.length 500) 500 = min l.length 500 from by omega]
    constructor
    · rw [hrows]
      simp
    · intro j hj
      rw [hrows, getD_map_range _ _ j default hj]
      exact hmat j hj
  · intro lp
    obtain ⟨hcnt, _, hmat⟩ := p0_trace lp
    have hcount : p0Count (List.foldl p0Append initP0 lp) = min lp.length 500 := by
      unfold p0Count MAX_LOGS
      rw [hcnt]
      split <;> omega
    constructor
    · unfold handleDataRows
      rw [hcount]
      simp
    · intro j hj
      unfold handleDataRows
      rw [hcount, getD_map_range _ _ j default hj]
      have := hmat j hj
      unfold MAX_LOGS
      exact this

/-- C8 witness: a single appended request is exported at row 0 by the
variant-C handleData read-out. -/
theorem export_insertion_order_witness :
    logMatches
      ((handleDataRows (List.foldl p0Append initP0
        [{ id := 3, dlc := 1, data := [9], extended := true, tx := false,
           ts := 4 }])).getD 0 default)
      ([({ id := 3, dlc := 1, data := [9], extended := true, tx := false,
           ts := 4 } : P0Req)].getD 0 default) := by
  have h := (export_insertion_order.2.2
    [{ id := 3, dlc := 1, data := [9], extended := true, tx := false,
       ts := 4 }]).2 0 (by simp)
  simpa using h

/-! ### Device registry, variant B (`std::map` in `CANMonitorTask`)

Source: on each received frame, if the identifier is absent a new record
is created (count 1, first = last = now); otherwise the record's count is
incremented and lastSeen / lastDLC / lastData are refreshed.  The map is
modelled as a function from identifier to optional record. -/

structure CANDevice where
  canId : Nat
  frcId : FRCCANIdentifier
  messageCount : Nat
  lastSeenMs : Nat
  firstSeenMs : Nat
  isExtended : Bool
  lastDLC : Nat
  lastData : Nat
deriving Repr, DecidableEq

/-- lastData packing loop: data bytes are or-ed in at 8-bit offsets for
indices below min(dlc, 8). -/
def computeLastData (m : Msg) : Nat :=
  (List.range (min m.dlc 8)).foldl
    (fun acc i => acc ||| ((m.data.getD i 0 % 256) <<< (i * 8))) 0

def observeDevice (devices : Nat → Option CANDevice) (m : Msg) :
    Nat → Option CANDevice :=
  match devices m.id with
  | none => fun k =>
      if k = m.id then
        some { canId := m.id
               frcId := decodeFRCCANID m.id
               messageCount := 1
               firstSeenMs := m.now % 4294967296
               lastSeenMs := m.now % 4294967296
               isExtended := m.extd
               lastDLC := m.dlc
               lastData := computeLastData m }
      else devices k
  | some dev => fun k =>
      if k = m.id then
        some { dev with
               messageCount := dev.messageCount + 1
               lastSeenMs := m.now % 4294967296
               lastDLC := m.dlc
               lastData := computeLastData m }
      else devices k

theorem observeDevice_existing (ms : List Msg) (id : Nat)
    (hall : ∀ m' ∈ ms, m'.id = id) (d : Nat → Option CANDevice)
    (dev : CANDevice) (hd : d id = some dev) :
    ∃ dev', (List.foldl observeDevice d ms) id = some dev' ∧
      dev'.messageCount = dev.messageCount + ms.length ∧
      dev'.firstSeenMs = dev.firstSeenMs ∧
      dev'.lastSeenMs =
        (ms.map (fun m => m.now % 4294967296)).getLastD dev.lastSeenMs ∧
      ∀ k, k ≠ id → (List.foldl observeDevice d ms) k = d k := by
  induction ms generalizing d dev with
  | nil => exact ⟨dev, hd, by simp, rfl, by simp, fun k _ => rfl⟩
  | cons m t ih =>
    have hmid : m.id = id := hall m (by simp)
    have hstep : observeDevice d m = fun k =>
        if k = id then
          some { dev with
                 messageCount := dev.messageCount + 1
                 lastSeenMs := m.now % 4294967296
                 lastDLC := m.dlc
                 lastData := computeLastData m }
        else d k := by
      unfold observeDevice
      rw [hmid, hd]
    have hd1 : (observeDevice d m) id = some
        { dev with
          messageCount := dev.messageCount + 1
          lastSeenMs := m.now % 4294967296
          lastDLC := m.dlc
          lastData := computeLastData m } := by
      rw [hstep]
      simp
    obtain ⟨dev', h1, h2, h3, h4, h5⟩ :=
      ih (fun m' hm' => hall m' (by simp [hm'])) (observeDevice d m) _ hd1
    refine ⟨dev', by simpa using h1, ?_, ?_, ?_, ?_⟩
    · rw [h2]
      simp only [List.length_cons]
      omega
    · exact h3
    · rw [h4]
      simp only [List.map_cons, List.getLastD_cons]
    · intro k hk
      rw [List.foldl_cons] at *
      rw [h5 k hk, hstep]
      simp [hk]

/-! ### Device registry, variant A (`updateDeviceList`)

Source: skips the fixed heartbeat identifier entirely; otherwise scans the
array for the identifier, incrementing count / refreshing lastSeen on a
hit, and appends a fresh record (count 1) when absent and below the
64-device capacity.  Variant A records no firstSeen timestamp. -/

def HEARTBEAT_ID : Nat := 0x01011840

def MAX_DEVICES : Nat := 64

structure DeviceInfo where
  canID : Nat
  deviceID : Nat
  manufacturerID : Nat
  apiID : Nat
  deviceNumber : Nat
  messageCount : Nat
  lastSeen : Nat
  active : Bool
deriving Repr, DecidableEq

/-- Update the first record matching the identifier (the scan loop). -/
def updFirst : List DeviceInfo → Nat → Nat → List DeviceInfo
  | [], _, _ => []
  | d :: t, canID, now =>
    if d.canID = canID then
      { d with messageCount := d.messageCount + 1, lastSeen := now % 4294967296,
               active := true } :: t
    else d :: updFirst t canID now

def updateDeviceList (l : List DeviceInfo) (canID now : Nat) : List DeviceInfo :=
  if canID = HEARTBEAT_ID then l
  else if l.any (fun d => d.canID == canID) then updFirst l canID now
  else if l.length < MAX_DEVICES then
    l ++ [{ canID := canID
            deviceID := (decodeCANMsgID canID).deviceID
            manufacturerID := (decodeCANMsgID canID).manufacturerID
            apiID := (decodeCANMsgID canID).apiID
            deviceNumber := (decodeCANMsgID canID).deviceNumber
            messageCount := 1
            lastSeen := now % 4294967296
            active := true }]
  else l

theorem updFirst_append_no_match (l : List DeviceInfo) (r0 : DeviceInfo)
    (canID now : Nat) (h0 : ∀ d ∈ l, d.canID ≠ canID) (hrec : r0.canID = canID) :
    updFirst (l ++ [r0]) canID now =
      l ++ [{ r0 with
              messageCount := r0.messageCount + 1
              lastSeen := now % 4294967296
              active := true }] := by
  induction l with
  | nil =>
    simp only [List.nil_append]
    unfold updFirst
    rw [if_pos hrec]
  | cons d t ih =>
    have hd : d.canID ≠ canID := h0 d (by simp)
    simp only [List.cons_append]
    unfold updFirst
    rw [if_neg hd, ih (fun d' hd' => h0 d' (by simp [hd']))]

theorem updateDeviceList_steps (id : Nat) (hid : id ≠ HEARTBEAT_ID)
    (l0 : List DeviceInfo) (h0 : ∀ d ∈ l0, d.canID ≠ id) (ts : List Nat)
    (r0 : DeviceInfo) (hr : r0.canID = id) :
    ∃ r1 : DeviceInfo,
      List.foldl (fun l t => updateDeviceList l id t) (l0 ++ [r0]) ts = l0 ++ [r1] ∧
      r1.canID = id ∧ r1.messageCount = r0.messageCount + ts.length ∧
      r1.lastSeen = (ts.map (fun t => t % 4294967296)).getLastD r0.lastSeen := by
  induction ts generalizing r0 with
  | nil => exact ⟨r0, rfl, hr, by simp, by simp⟩
  | cons t rest ih =>
    have hany : (l0 ++ [r0]).any (fun d => d.canID == id) = true := by
      simp only [List.any_append, List.any_cons, List.any_nil, Bool.or_false,
        Bool.or_eq_true, List.any_eq_true, beq_iff_eq]
      exact Or.inr hr
    have hstep : updateDeviceList (l0 ++ [r0]) id t =
        l0 ++ [{ r0 with
                 messageCount := r0.messageCount + 1
                 lastSeen := t % 4294967296
                 active := true }] := by
      unfold updateDeviceList
      rw [if_neg hid, if_pos hany, updFirst_append_no_match l0 r0 id t h0 hr]
    rw [List.foldl_cons, hstep]
    obtain ⟨r1, h1, h2, h3, h4⟩ := ih
      { r0 with
        messageCount := r0.messageCount + 1
        lastSeen := t % 4294967296
        active := true } hr
    refine ⟨r1, h1, h2, ?_, ?_⟩
    · rw [h3]
      simp only [List.length_cons]
      omega
    · rw [h4]
      simp only [List.map_cons, List.getLastD_cons]

/-- C6 counterexample: in the array-backed variant the fixed heartbeat
identifier 0x01011840 is never tracked — observing it once from an empty
registry (which does not contain it and is far below capacity) leaves the
registry without any record for it, so the claimed record with message
count 1 does not exist. -/
theorem registry_heartbeat_excluded_counterexample :
    updateDeviceList [] HEARTBEAT_ID 5 = [] ∧
    (updateDeviceList [] HEARTBEAT_ID 5).filter
      (fun d => d.canID == HEARTBEAT_ID) = [] := by
  constructor
  · rfl
  · rfl

/-- C6 (amended): in the map-backed variant the claim holds for every
identifier: after N observations of frames with the same identifier,
starting from a registry not containing it, the registry maps that
identifier to a record with message count N, firstSeen equal to the first
frame's timestamp and lastSeen equal to the N-th frame's timestamp, all
other identifiers unchanged.  In the array-backed variant the same holds
(for message count and lastSeen — that variant stores no firstSeen field)
for every identifier except the fixed heartbeat id 0x01011840, which is
never tracked; the registry then holds exactly one record for the
identifier. -/
theorem registry_observe_amended
    (m0 : Msg) (rest : List Msg) (d0 : Nat → Option CANDevice)
    (hd0 : d0 m0.id = none) (hrest : ∀ m' ∈ rest, m'.id = m0.id)
    (id : Nat) (hid : id ≠ HEARTBEAT_ID) (l0 : List DeviceInfo)
    (h0 : ∀ d ∈ l0, d.canID ≠ id) (hcap : l0.length < 64) (t0 : Nat)
    (ts : List Nat) :
    (∃ dev, (List.foldl observeDevice d0 (m0 :: rest)) m0.id = some dev ∧
      dev.messageCount = 1 + rest.length ∧
      dev.firstSeenMs = m0.now % 4294967296 ∧
      dev.lastSeenMs =
        (rest.map (fun m => m.now % 4294967296)).getLastD (m0.now % 4294967296) ∧
      ∀ k, k ≠ m0.id → (List.foldl observeDevice d0 (m0 :: rest)) k = d0 k) ∧
    (∃ r1 : DeviceInfo,
      List.foldl (fun l t => updateDeviceList l id t) l0 (t0 :: ts) = l0 ++ [r1] ∧
      r1.canID = id ∧ r1.messageCount = 1 + ts.length ∧
      r1.lastSeen = (ts.map (fun t => t % 4294967296)).getLastD (t0 % 4294967296) ∧
      (l0 ++ [r1]).filter (fun d => d.canID == id) = [r1]) := by
  constructor
  · have hstep : observeDevice d0 m0 = fun k =>
        if k = m0.id then
          some { canId := m0.id
                 frcId := decodeFRCCANID m0.id
                 messageCount := 1
                 firstSeenMs := m0.now % 4294967296
                 lastSeenMs := m0.now % 4294967296
                 isExtended := m0.extd
                 lastDLC := m0.dlc
                 lastData := computeLastData m0 }
        else d0 k := by
      unfold observeDevice
      rw [hd0]
    have hd1 : (observeDevice d0 m0) m0.id = some
        { canId := m0.id
          frcId := decodeFRCCANID m0.id
          messageCount := 1
          firstSeenMs := m0.now % 4294967296
          lastSeenMs := m0.now % 4294967296
          isExtended := m0.extd
          lastDLC := m0.dlc
          lastData := computeLastData m0 } := by
      rw [hstep]
      simp
    obtain ⟨dev', h1, h2, h3, h4, h5⟩ :=
      observeDevice_existing rest m0.id hrest (observeDevice d0 m0) _ hd1
    refine ⟨dev', by simpa using h1, by simpa using h2, h3, by simpa using h4, ?_⟩
    intro k hk
    rw [List.foldl_cons, h5 k hk, hstep]
    simp [hk]
  · have hany : l0.any (fun d => d.canID == id) = false := by
      simp only [List.any_eq_false, beq_iff_eq]
      exact fun d hd => h0 d hd
    have hstep : updateDeviceList l0 id t0 = l0 ++
        [{ canID := id
           deviceID := (decodeCANMsgID id).deviceID
           manufacturerID := (decodeCANMsgID id).manufacturerID
           apiID := (decodeCANMsgID id).apiID
           deviceNumber := (decodeCANMsgID id).deviceNumber
           messageCount := 1
           lastSeen := t0 % 4294967296
           active := true }] := by
      unfold updateDeviceList MAX_DEVICES
      rw [if_neg hid, if_neg (by rw [hany]; exact Bool.false_ne_true),
        if_pos (by omega)]
    rw [List.foldl_cons, hstep]
    obtain ⟨r1, h1, h2, h3, h4⟩ := updateDeviceList_steps id hid l0 h0 ts
      { canID := id
        deviceID := (decodeCANMsgID id).deviceID
        manufacturerID := (decodeCANMsgID id).manufacturerID
        apiID := (decodeCANMsgID id).apiID
        deviceNumber := (decodeCANMsgID id).deviceNumber
        messageCount := 1
        lastSeen := t0 % 4294967296
        active := true } rfl
    refine ⟨r1, h1, h2, by simpa using h3, by simpa using h4, ?_⟩
    rw [List.filter_append]
    have hl0 : l0.filter (fun d => d.canID == id) = [] := by
      rw [List.filter_eq_nil_iff]
      intro d hd
      simp only [beq_iff_eq]
      exact h0 d hd
    rw [hl0]
    simp [h2]

/-- C6 amended witness: one observation of identifier 5 creates a map
record, and one observation of identifier 3 at time 2 yields a registry of
exactly one record. -/
theorem registry_observe_amended_witness :
    ((List.foldl observeDevice (fun _ => none)
      [{ id := 5, extd := true, rtr := false, dlc := 1, data := [1], now := 3 }])
        5).isSome = true ∧
    (List.foldl (fun l t => updateDeviceList l 3 t)
      ([] : List DeviceInfo) [2]).length = 1 := by
  obtain ⟨⟨dev, hdev, _⟩, ⟨r1, hr1, _⟩⟩ :=
    registry_observe_amended
      { id := 5, extd := true, rtr := false, dlc := 1, data := [1], now := 3 }
      [] (fun _ => none) rfl (by simp) 3 (by decide) [] (by simp) (by decide) 2 []
  constructor
  · have h5 : (List.foldl observeDevice (fun _ => none)
        [{ id := 5, extd := true, rtr := false, dlc := 1, data := [1], now := 3 }])
          5 = some dev := by simpa using hdev
    rw [h5]
    rfl
  · rw [hr1]
    rfl

/-! ### Device number persistence and serial helper (variant C)

Source: `EEPROMReadCANID` loads the persisted byte and falls back to
`DEFAULT_DEVICE_NUMBER` when it exceeds 63; the serial command
`&CANID SET xx` parses an integer and applies it only when within 0..63,
otherwise printing an error and leaving the running value unchanged. -/

def DEFAULT_DEVICE_NUMBER : Nat := 10

def EEPROMReadCANID (saved : Nat) : Nat :=
  if saved % 256 ≤ 63 then saved % 256 else DEFAULT_DEVICE_NUMBER

/-- The `&CANID SET` handler: returns the new running device number and
whether the request was accepted. -/
def canidSetCommand (cur : Nat) (val : Int) : Nat × Bool :=
  if 0 ≤ val ∧ val ≤ 63 then (val.toNat % 256, true) else (cur, false)

/-! ### The `/send` handler (variant A)

Source: with both `id` and `data` arguments present, the identifier is
parsed with `strtoul(_, NULL, 16)` and the payload is tokenized by spaces,
each token parsed the same way into a byte; the frame is then transmitted
and on success the transmit counter is incremented (HTTP 200), on failure
nothing is mutated (HTTP 500).  A request missing either argument is
answered with HTTP 400 and nothing else happens. -/

/-- Predicate for hexadecimal digit characters. -/
def isHexDigitChar (c : Char) : Bool :=
  (decide ('0' ≤ c) && decide (c ≤ '9')) ||
  (decide ('a' ≤ c) && decide (c ≤ 'f')) ||
  (decide ('A' ≤ c) && decide (c ≤ 'F'))

def hexDigitVal (c : Char) : Nat :=
  if decide ('0' ≤ c) && decide (c ≤ '9') then c.toNat - 48
  else if decide ('a' ≤ c) && decide (c ≤ 'f') then c.toNat - 87
  else c.toNat - 55

def hexAccum : List Char → Nat → Nat
  | [], acc => acc
  | c :: t, acc =>
    if isHexDigitChar c then hexAccum t (acc * 16 + hexDigitVal c) else acc

/-- Model of the C library call `strtoul(str, NULL, 16)` as used by
`handleSend`: skip leading spaces and an optional 0x/0X prefix, accumulate
hexadecimal digits, and return 0 when no digit is present (no conversion
performed). -/
def strtoulHex (cs : List Char) : Nat :=
  let cs1 := cs.dropWhile (fun c => c = ' ')
  let cs2 :=
    if cs1.take 2 = ['0', 'x'] ∨ cs1.take 2 = ['0', 'X'] then cs1.drop 2 else cs1
  hexAccum cs2 0

def splitTokensAux : List Char → List Char → List (List Char)
  | [], cur => if cur = [] then [] else [cur.reverse]
  | c :: t, cur =>
    if c = ' ' then
      if cur = [] then splitTokensAux t [] else cur.reverse :: splitTokensAux t []
    else splitTokensAux t (c :: cur)

/-- Model of the `strtok(_, " ")` loop: space-separated tokens, runs of
spaces collapsed. -/
def strtokSpaces (cs : List Char) : List (List Char) := splitTokensAux cs []

structure SendOutcome where
  code : Nat
  txCount : Nat
  attempted : Option (Nat × List Nat)
deriving Repr, DecidableEq

def handleSend (hasId hasData : Bool) (idStr dataStr : List Char)
    (txOk : Bool) (txCount : Nat) : SendOutcome :=
  if hasId && hasData then
    let canId := strtoulHex idStr % 4294967296
    let dataBytes := ((strtokSpaces dataStr).take 8).map (fun t => strtoulHex t % 256)
    if txOk then
      { code := 200, txCount := txCount + 1, attempted := some (canId, dataBytes) }
    else
      { code := 500, txCount := txCount, attempted := some (canId, dataBytes) }
  else
    { code := 400, txCount := txCount, attempted := none }

/-- C7 counterexample: a send request whose identifier is unparsable is not
rejected — `strtoul` yields 0 and the frame is transmitted as identifier 0,
incrementing the transmit counter on success. -/
theorem handleSend_unparsable_counterexample :
    handleSend true true ['z', 'z', 'z'] [] true 0 =
      { code := 200, txCount := 1, attempted := some (0, []) } := by
  rfl

/-- C7 (amended): an out-of-range device-number set request (outside 0..63)
is rejected and leaves the running device number unchanged; a persisted
device-number byte above 63 falls back to the fixed default 10 on load; a
send request missing the identifier or payload argument is rejected with
HTTP 400 without transmitting or mutating state.  A send request whose
arguments are present but unparsable is, however, not rejected: the
unparsable text parses as 0 and the frame is transmitted. -/
theorem boundary_input_validation_amended (cur : Nat) (val : Int) (saved : Nat)
    (idStr dataStr : List Char) (txOk : Bool) (txCount : Nat) :
    (val < 0 ∨ 63 < val → canidSetCommand cur val = (cur, false)) ∧
    (63 < saved % 256 → EEPROMReadCANID saved = DEFAULT_DEVICE_NUMBER) ∧
    (∀ hasId hasData : Bool, hasId = false ∨ hasData = false →
      handleSend hasId hasData idStr dataStr txOk txCount =
        { code := 400, txCount := txCount, attempted := none }) := by
  refine ⟨?_, ?_, ?_⟩
  · intro h
    unfold canidSetCommand
    rw [if_neg (by omega)]
  · intro h
    unfold EEPROMReadCANID
    rw [if_neg (by omega)]
  · intro hasId hasData h
    unfold handleSend
    rcases h with h | h <;> rw [h] <;> simp

/-- C7 amended witness: a set request of 99 is rejected leaving 10, a
persisted byte 200 loads as the default 10, and a send request without an
id argument is answered 400 with no transmission. -/
theorem boundary_input_validation_amended_witness :
    canidSetCommand 10 99 = (10, false) ∧
    EEPROMReadCANID 200 = DEFAULT_DEVICE_NUMBER ∧
    handleSend false true [] [] true 0 =
      { code := 400, txCount := 0, attempted := none } :=
  ⟨(boundary_input_validation_amended 10 99 200 [] [] true 0).1
      (Or.inr (by decide)),
   (boundary_input_validation_amended 10 99 200 [] [] true 0).2.1 (by decide),
   (boundary_input_validation_amended 10 99 200 [] [] true 0).2.2 false true
      (Or.inl rfl)⟩

/-! ### Stats reset (variant A `handleReset`)

Source: sets `rxCount`, `txCount`, `errCount`, `lastHeartbeat` and
`deviceCount` all to 0.  Setting `deviceCount = 0` renders the array-backed
registry empty (records beyond `deviceCount` are unreachable), which the
list model expresses as the empty list.  The message buffer fields are not
touched. -/

structure AGlobals where
  rxCount : Nat
  txCount : Nat
  errCount : Nat
  lastHeartbeat : Nat
  devices : List DeviceInfo
  bufferIndex : Nat
  totalMessages : Nat
deriving Repr, DecidableEq

def handleReset (g : AGlobals) : AGlobals :=
  { g with rxCount := 0, txCount := 0, errCount := 0, lastHeartbeat := 0,
           devices := [] }

/-- C9: the stats-reset handler zeroes the rx/tx/error counters and also
clears the device registry and the last-heartbeat timestamp, while leaving
the message buffer state untouched. -/
theorem stats_reset_clears_registry_and_heartbeat (g : AGlobals) :
    (handleReset g).rxCount = 0 ∧ (handleReset g).txCount = 0 ∧
    (handleReset g).errCount = 0 ∧ (handleReset g).lastHeartbeat = 0 ∧
    (handleReset g).devices = [] ∧
    (handleReset g).bufferIndex = g.bufferIndex ∧
    (handleReset g).totalMessages = g.totalMessages :=
  ⟨rfl, rfl, rfl, rfl, rfl, rfl, rfl⟩

/-! ### Transmit path (variant C `CAN_Send`, variant A `handleSend`)

Source `CAN_Send`: returns false immediately when the driver is not
started; otherwise transmits with a 20 ms timeout and only on success
writes the frame into the circular log (extended, is_tx = true) and
advances the ring. -/

def CAN_Send (s : P0State) (can_started : Bool) (id : Nat) (data : List Nat)
    (dlc : Nat) (txOk : Bool) (ts : Nat) : P0State × Bool :=
  if !can_started then (s, false)
  else if txOk then
    (p0Append s { id := id, dlc := dlc, data := data, extended := true,
                  tx := true, ts := ts }, true)
  else (s, false)

/-- C10: a transmitted frame is recorded exactly when the bus transmit
succeeds.  `CAN_Send` leaves the log unchanged when the driver is down or
the transmit fails, and on success appends the frame marked as
transmitted; `handleSend` leaves the transmit counter unchanged on a
failed transmit (HTTP 500) and increments it exactly on success. -/
theorem transmit_recorded_iff_success (s : P0State) (can_started : Bool)
    (id : Nat) (data : List Nat) (dlc : Nat) (txOk : Bool) (ts : Nat)
    (idStr dataStr : List Char) (txCount : Nat) :
    CAN_Send s false id data dlc txOk ts = (s, false) ∧
    CAN_Send s can_started id data dlc false ts = (s, false) ∧
    CAN_Send s true id data dlc true ts =
      (p0Append s { id := id, dlc := dlc, data := data, extended := true,
                    tx := true, ts := ts }, true) ∧
    ((CAN_Send s true id data dlc true ts).1.logs s.logIndex).is_tx = true ∧
    (handleSend true true idStr dataStr false txCount).txCount = txCount ∧
    (handleSend true true idStr dataStr false txCount).code = 500 ∧
    (handleSend true true idStr dataStr true txCount).txCount = txCount + 1 := by
  refine ⟨rfl, ?_, rfl, ?_, rfl, rfl, rfl⟩
  · cases can_started <;> rfl
  · show ((p0Append s _).logs s.logIndex).is_tx = true
    simp [p0Append, writeCANLog]

end Adalogger
